import Mathlib

set_option maxRecDepth 8000

/-! Verification of the container-stop and trust-gated transfer core of this
repository. The stop command (src/cmd/nerdctl/stop.go) is embedded directly
from its source; collaborators of this repository that are not under src/
(the container walker, containerutil.Stop, the push/pull transfer gate) are
modelled from the spec, each marked as such in its doc comment. -/

/-- A live container known to the runtime: unique ID plus optional
human-assigned name (spec section 3, Entity). -/
structure Container where
  id : String
  name : Option String
  deriving DecidableEq, Repr

/-- Outcome of one containerutil.Stop call as observed by stopAction
(src/cmd/nerdctl/stop.go): success, a not-found error (errdefs.IsNotFound),
or any other error carrying its message. containerutil.Stop itself is not
under src/, so its outcome is an input of the embedding. -/
inductive StopOutcome where
  | ok
  | notFoundErr
  | otherErr (msg : String)
  deriving DecidableEq, Repr

/-- Modelled from the spec: the EntityResolver matching rule (spec section
4.1); the resolver implementation (pkg/idutil/containerwalker) is not under
src/, only its caller stopAction is. An entity matches when the request is a
non-empty initial segment of its full ID (a full ID is such a segment of
itself) or equals its assigned name exactly. -/
def matchesEntity (req : String) (c : Container) : Bool :=
  (req != "" && req.toList.isPrefixOf c.id.toList) || c.name == some req

/-- Modelled from the spec: the resolution match set; a full-length ID match
takes priority and short-circuits ambiguity checking against shorter initial
segments of other entities (spec section 4.1). -/
def resolveMatches (E : List Container) (req : String) : List Container :=
  match E.find? (fun c => c.id == req) with
  | some c => [c]
  | none => E.filter (matchesEntity req)

/-- Outcome of matching a ResolutionRequest against the entity set
(spec section 3, ResolutionResult). -/
inductive ResolutionResult where
  | notFound
  | resolved (c : Container)
  | ambiguous (n : Nat)
  deriving DecidableEq, Repr

/-- Modelled from the spec: Resolve classifies the match set by its size
(spec section 4.1). -/
def Resolve (E : List Container) (req : String) : ResolutionResult :=
  match resolveMatches E req with
  | [] => ResolutionResult.notFound
  | [c] => ResolutionResult.resolved c
  | _c1 :: _c2 :: rest => ResolutionResult.ambiguous (rest.length + 2)

/-- Observable effects of one stopAction run: the containerutil.Stop
invocations (container paired with the timeout argument), the stdout lines
and the stderr lines, in order. -/
structure RunLog where
  stopCalls : List (Container × Option Int)
  stdout : List String
  stderr : List String
  deriving DecidableEq, Repr

def initLog : RunLog := { stopCalls := [], stdout := [], stderr := [] }

/-- Result of a cobra RunE function: nil, or a Go error with its message. -/
inductive CmdResult where
  | ok
  | error (msg : String)
  deriving DecidableEq, Repr

/-- The command runner maps a nil RunE result to exit status 0 and any
returned error to a nonzero exit status. -/
def exitCode : CmdResult → Nat
  | CmdResult.ok => 0
  | CmdResult.error _ => 1

/-- The OnFound callback of stopAction (src/cmd/nerdctl/stop.go, lines
70-83): a match count above 1 returns the ambiguity error before any Stop
call; otherwise containerutil.Stop is invoked, a not-found outcome is
recovered into a stderr message and a nil return, success prints the original
request to stdout, and any other error is returned as is. -/
def onFound (stopFn : Option Int → Container → StopOutcome) (t : Option Int)
    (req : String) (matchCount : Nat) (c : Container) (log : RunLog) :
    RunLog × Option String :=
  if 1 < matchCount then
    (log, some ("multiple IDs found with provided prefix: " ++ req))
  else
    let log1 := { log with stopCalls := log.stopCalls ++ [(c, t)] }
    match stopFn t c with
    | StopOutcome.ok => ({ log1 with stdout := log1.stdout ++ [req] }, none)
    | StopOutcome.notFoundErr =>
        ({ log1 with stderr := log1.stderr ++ ["No such container: " ++ req] }, none)
    | StopOutcome.otherErr m => (log1, some m)

/-- Modelled from the spec: the walker invokes OnFound once per matched
container, aborting at the first callback error (the walker implementation is
not under src/). -/
def runOnFoundAll (stopFn : Option Int → Container → StopOutcome) (t : Option Int)
    (req : String) (matchCount : Nat) :
    List Container → RunLog → RunLog × Option String
  | [], log => (log, none)
  | c :: cs, log =>
    match onFound stopFn t req matchCount c log with
    | (log1, none) => runOnFoundAll stopFn t req matchCount cs log1
    | (log1, some e) => (log1, some e)

/-- Modelled from the spec: ContainerWalker.Walk computes the match set,
reports its size and feeds each match to OnFound with that size as the
match count. -/
def walk (stopFn : Option Int → Container → StopOutcome) (t : Option Int)
    (E : List Container) (req : String) (log : RunLog) :
    Nat × RunLog × Option String :=
  let cs := resolveMatches E req
  let r := runOnFoundAll stopFn t req cs.length cs log
  (cs.length, r.1, r.2)

/-- The argument loop of stopAction (src/cmd/nerdctl/stop.go, lines 85-92):
walk each request in argument order; a walker error is returned at once, and
a zero match count returns the no-such-container error at once. -/
def stopArgs (stopFn : Option Int → Container → StopOutcome) (t : Option Int)
    (E : List Container) : List String → RunLog → RunLog × CmdResult
  | [], log => (log, CmdResult.ok)
  | req :: rest, log =>
    let r := walk stopFn t E req log
    match r.2.2 with
    | some m => (r.2.1, CmdResult.error m)
    | none =>
      if r.1 == 0 then (r.2.1, CmdResult.error ("no such container " ++ req))
      else stopArgs stopFn t E rest r.2.1

/-- Two's-complement wrap of a Go int64 value. -/
def int64wrap (x : Int) : Int := (x + 2 ^ 63) % 2 ^ 64 - 2 ^ 63

/-- The timeout computation of stopAction (src/cmd/nerdctl/stop.go, lines
53-61): the *time.Duration stays nil unless the time flag was changed on the
command line, in which case it is the flag value scaled to nanoseconds. -/
def stopTimeout (flagChanged : Bool) (timeValue : Int) : Option Int :=
  if flagChanged then some (int64wrap (timeValue * 1000000000)) else none

/-- stopAction (src/cmd/nerdctl/stop.go): computes the optional timeout from
the flag state and runs the walker loop over all request arguments. -/
def stopAction (flagChanged : Bool) (timeValue : Int)
    (stopFn : Option Int → Container → StopOutcome)
    (E : List Container) (args : List String) : RunLog × CmdResult :=
  stopArgs stopFn (stopTimeout flagChanged timeValue) E args initLog

/-- Modelled from the spec: a missing timeout means use the backend default,
a fixed finite duration, not wait forever (spec section 3, TerminationSpec);
containerutil.Stop, which applies the default, is not under src/. The default
is ten seconds in nanoseconds. -/
def defaultStopTimeout : Int := 10 * 1000000000

/-- Modelled from the spec: the timeout that actually governs a stop is the
explicit one when present and the backend default otherwise. -/
def effectiveStopTimeout (t : Option Int) : Int := t.getD defaultStopTimeout

/-! Concrete containers used by witnesses and counterexamples. -/

def cBravo : Container := { id := "bbbb0000", name := some "bravo" }

def cAbc1 : Container := { id := "abcd1111", name := none }

def cAbc2 : Container := { id := "abce2222", name := none }

def cAbc3 : Container := { id := "abcf4444", name := none }

/-! Helper lemmas about the walker loop. -/

/-- One OnFound call either leaves the Stop-call log unchanged or appends
exactly the one call it made, carrying the ambient timeout. -/
theorem onFound_stopCalls (stopFn : Option Int → Container → StopOutcome)
    (t : Option Int) (req : String) (n : Nat) (c : Container) (log : RunLog) :
    (onFound stopFn t req n c log).1.stopCalls = log.stopCalls
    ∨ (onFound stopFn t req n c log).1.stopCalls = log.stopCalls ++ [(c, t)] := by
  unfold onFound
  split
  · exact Or.inl rfl
  · cases stopFn t c <;> exact Or.inr rfl

/-- Walker loop invariant: every recorded Stop call carries the ambient
timeout. -/
theorem runOnFoundAll_stopCalls_timeout (stopFn : Option Int → Container → StopOutcome)
    (t : Option Int) (req : String) (n : Nat) :
    ∀ (cs : List Container) (log : RunLog),
      (∀ p ∈ log.stopCalls, p.2 = t) →
      ∀ p ∈ (runOnFoundAll stopFn t req n cs log).1.stopCalls, p.2 = t := by
  intro cs
  induction cs with
  | nil => intro log h; simpa [runOnFoundAll] using h
  | cons c cs ih =>
    intro log h
    have h1 : ∀ p ∈ (onFound stopFn t req n c log).1.stopCalls, p.2 = t := by
      rcases onFound_stopCalls stopFn t req n c log with hc | hc <;> rw [hc]
      · exact h
      · intro p hp
        rcases List.mem_append.mp hp with h' | h'
        · exact h p h'
        · simp only [List.mem_singleton] at h'
          rw [h']
    simp only [runOnFoundAll]
    rcases hof : onFound stopFn t req n c log with ⟨log1, e⟩
    rw [hof] at h1
    cases e with
    | none => exact ih log1 h1
    | some m => exact h1

/-- Argument loop invariant: every recorded Stop call carries the ambient
timeout. -/
theorem stopArgs_stopCalls_timeout (stopFn : Option Int → Container → StopOutcome)
    (t : Option Int) (E : List Container) :
    ∀ (args : List String) (log : RunLog),
      (∀ p ∈ log.stopCalls, p.2 = t) →
      ∀ p ∈ (stopArgs stopFn t E args log).1.stopCalls, p.2 = t := by
  intro args
  induction args with
  | nil => intro log h; simpa [stopArgs] using h
  | cons req rest ih =>
    intro log h
    have hw : ∀ p ∈ (walk stopFn t E req log).2.1.stopCalls, p.2 = t := by
      simp only [walk]
      exact runOnFoundAll_stopCalls_timeout stopFn t req _ _ log h
    simp only [stopArgs]
    rcases hwe : (walk stopFn t E req log).2.2 with _ | m
    · by_cases hn : ((walk stopFn t E req log).1 == 0) = true
      · rw [if_pos hn]
        exact hw
      · rw [if_neg hn]
        exact ih _ hw
    · exact hw

/-- The walker on a singleton match set just runs OnFound once. -/
theorem runOnFoundAll_singleton (stopFn : Option Int → Container → StopOutcome)
    (t : Option Int) (req : String) (n : Nat) (c : Container) (log : RunLog) :
    runOnFoundAll stopFn t req n [c] log = onFound stopFn t req n c log := by
  simp only [runOnFoundAll]
  rcases h : onFound stopFn t req n c log with ⟨log1, e⟩
  cases e <;> simp [runOnFoundAll]

/-- C3 counterexample: with one existing container and the argument list
["zzzz", "bbbb"], the zero-match first argument makes stopAction return its
error at once: the run log stays empty, so the second argument — which would
have matched cBravo uniquely — is never processed and no Stop call is issued,
refuting that a not-found result is non-fatal to the batch. -/
theorem stop_notFound_fatal_to_batch_cex :
    stopArgs (fun _ _ => StopOutcome.ok) none [cBravo] ["zzzz", "bbbb"] initLog
      = (initLog, CmdResult.error "no such container zzzz")
    ∧ resolveMatches [cBravo] "bbbb" = [cBravo] := by
  decide

/-- C3 (amended): a zero-match argument is fatal to the batch — stopAction
returns the no-such-container error for it immediately, leaving the run log
untouched and processing none of the remaining arguments; the overall command
reports failure. -/
theorem stop_notFound_aborts_batch (stopFn : Option Int → Container → StopOutcome)
    (t : Option Int) (E : List Container) (req : String) (rest : List String)
    (log : RunLog) (h : resolveMatches E req = []) :
    stopArgs stopFn t E (req :: rest) log
      = (log, CmdResult.error ("no such container " ++ req)) := by
  simp [stopArgs, walk, h, runOnFoundAll]

/-- C3 witness: the amended statement applied at a concrete input. -/
theorem stop_notFound_aborts_batch_witness :
    resolveMatches [cBravo] "qqqq" = []
    ∧ stopArgs (fun _ _ => StopOutcome.ok) none [cBravo] ("qqqq" :: ["bbbb"]) initLog
        = (initLog, CmdResult.error ("no such container " ++ "qqqq")) :=
  ⟨by decide, stop_notFound_aborts_batch _ _ _ _ _ _ (by decide)⟩

/-- C4: when the resolved container vanishes before the Stop call takes
effect (containerutil.Stop reports not-found after a successful unique
resolution), stopAction recovers: the request is reported on stderr and the
command result is success, not failure. -/
theorem stop_vanished_reported_success (stopFn : Option Int → Container → StopOutcome)
    (t : Option Int) (E : List Container) (req : String) (c : Container) (log : RunLog)
    (h1 : resolveMatches E req = [c]) (h2 : stopFn t c = StopOutcome.notFoundErr) :
    stopArgs stopFn t E [req] log =
      ({ log with stopCalls := log.stopCalls ++ [(c, t)],
                  stderr := log.stderr ++ ["No such container: " ++ req] },
        CmdResult.ok) := by
  simp only [stopArgs, walk, h1, List.length_singleton, runOnFoundAll_singleton]
  simp [onFound, h2, stopArgs]

/-- C4 witness: the theorem applied at a concrete input where the container
vanishes mid-stop. -/
theorem stop_vanished_reported_success_witness :
    resolveMatches [cBravo] "bravo" = [cBravo]
    ∧ stopArgs (fun _ _ => StopOutcome.notFoundErr) none [cBravo] ["bravo"] initLog =
        ({ initLog with stopCalls := initLog.stopCalls ++ [(cBravo, none)],
                        stderr := initLog.stderr ++ ["No such container: " ++ "bravo"] },
          CmdResult.ok) :=
  ⟨by decide, stop_vanished_reported_success _ _ _ _ _ _ (by decide) rfl⟩

/-- C5: the stop timeout is nil exactly when the time flag was not changed on
the command line; every Stop call of a run is passed that same optional
timeout; and a nil timeout is governed by the finite backend default rather
than waiting forever. -/
theorem stop_timeout_iff_flag (flagChanged : Bool) (timeValue : Int)
    (stopFn : Option Int → Container → StopOutcome) (E : List Container)
    (args : List String) :
    (stopTimeout flagChanged timeValue = none ↔ flagChanged = false)
    ∧ (∀ p ∈ (stopAction flagChanged timeValue stopFn E args).1.stopCalls,
        p.2 = stopTimeout flagChanged timeValue)
    ∧ effectiveStopTimeout none = defaultStopTimeout := by
  refine ⟨?_, ?_, rfl⟩
  · cases flagChanged <;> simp [stopTimeout]
  · exact stopArgs_stopCalls_timeout _ _ _ _ _ (by simp [initLog])

/-- C5 witness: the theorem applied at a concrete input; with the flag set to
5 seconds the recorded Stop call carries some explicit timeout. -/
theorem stop_timeout_iff_flag_witness :
    (stopTimeout true 5 = none ↔ true = false)
    ∧ (∀ p ∈ (stopAction true 5 (fun _ _ => StopOutcome.ok) [cBravo] ["bbbb"]).1.stopCalls,
        p.2 = stopTimeout true 5)
    ∧ effectiveStopTimeout none = defaultStopTimeout :=
  stop_timeout_iff_flag true 5 (fun _ _ => StopOutcome.ok) [cBravo] ["bbbb"]

/-- C1: resolution returns exactly one of not-found, resolved-to-one, or
ambiguous with match count at least 2; and whenever the match count exceeds
1, the walk returns the ambiguity error for that request and leaves the run
log unchanged — in particular no Stop signal is issued to any matched
container. -/
theorem resolve_trichotomy_ambiguous_no_signal
    (E : List Container) (req : String)
    (stopFn : Option Int → Container → StopOutcome) (t : Option Int) (log : RunLog) :
    (Resolve E req = ResolutionResult.notFound
      ∨ (∃ c, Resolve E req = ResolutionResult.resolved c)
      ∨ (∃ n, 2 ≤ n ∧ Resolve E req = ResolutionResult.ambiguous n))
    ∧ (1 < (resolveMatches E req).length →
        (walk stopFn t E req log).2.2
            = some ("multiple IDs found with provided prefix: " ++ req)
        ∧ (walk stopFn t E req log).2.1 = log) := by
  constructor
  · rcases hm : resolveMatches E req with _ | ⟨c, _ | ⟨c2, cs⟩⟩
    · exact Or.inl (by simp [Resolve, hm])
    · exact Or.inr (Or.inl ⟨c, by simp [Resolve, hm]⟩)
    · exact Or.inr (Or.inr ⟨cs.length + 2, by omega, by simp [Resolve, hm]⟩)
  · intro hlen
    rcases hm : resolveMatches E req with _ | ⟨c, _ | ⟨c2, cs⟩⟩
    · rw [hm] at hlen
      simp at hlen
    · rw [hm] at hlen
      simp at hlen
    · have hgt : 1 < (c :: c2 :: cs).length := by
        simp
      simp only [walk, hm]
      constructor <;> simp [runOnFoundAll, onFound, hgt]

/-- C1 witness: a concrete ambiguous request with two matching containers;
the walk errors and no Stop call is recorded. -/
theorem resolve_trichotomy_ambiguous_no_signal_witness :
    1 < (resolveMatches [cAbc1, cAbc2] "abc").length
    ∧ ((walk (fun _ _ => StopOutcome.ok) none [cAbc1, cAbc2] "abc" initLog).2.2
          = some ("multiple IDs found with provided prefix: " ++ "abc")
        ∧ (walk (fun _ _ => StopOutcome.ok) none [cAbc1, cAbc2] "abc" initLog).2.1
          = initLog) :=
  ⟨by decide,
    (resolve_trichotomy_ambiguous_no_signal [cAbc1, cAbc2] "abc"
      (fun _ _ => StopOutcome.ok) none initLog).2 (by decide)⟩

/-- C2 counterexample: with three containers matching the request "abc", the
user-visible error is the fixed message carrying only the request string; the
character 3 occurs nowhere in it, so the match count 3 is not reported. -/
theorem stop_ambiguous_error_lacks_count_cex :
    (resolveMatches [cAbc1, cAbc2, cAbc3] "abc").length = 3
    ∧ (stopArgs (fun _ _ => StopOutcome.ok) none [cAbc1, cAbc2, cAbc3] ["abc"] initLog).2
        = CmdResult.error "multiple IDs found with provided prefix: abc"
    ∧ '3' ∉ "multiple IDs found with provided prefix: abc".toList := by
  decide

/-- C2 (amended): a request matching 2 or more containers makes the stop
command fail with the fixed ambiguity error that reports the offending
request string — not the match count — and the process exits nonzero. -/
theorem stop_ambiguous_error_and_nonzero_exit
    (stopFn : Option Int → Container → StopOutcome) (t : Option Int)
    (E : List Container) (req : String) (rest : List String) (log : RunLog)
    (h : 2 ≤ (resolveMatches E req).length) :
    (stopArgs stopFn t E (req :: rest) log).2
        = CmdResult.error ("multiple IDs found with provided prefix: " ++ req)
    ∧ exitCode (stopArgs stopFn t E (req :: rest) log).2 ≠ 0 := by
  rcases hm : resolveMatches E req with _ | ⟨c, _ | ⟨c2, cs⟩⟩
  · rw [hm] at h
    simp at h
  · rw [hm] at h
    simp at h
  · have hgt : 1 < (c :: c2 :: cs).length := by
      simp
    have hres : (stopArgs stopFn t E (req :: rest) log).2
        = CmdResult.error ("multiple IDs found with provided prefix: " ++ req) := by
      simp only [stopArgs, walk, hm]
      simp [runOnFoundAll, onFound, hgt]
    exact ⟨hres, by rw [hres]; simp [exitCode]⟩

/-- C2 witness: the amended statement applied at a concrete ambiguous
input. -/
theorem stop_ambiguous_error_and_nonzero_exit_witness :
    2 ≤ (resolveMatches [cAbc1, cAbc2] "ab").length
    ∧ ((stopArgs (fun _ _ => StopOutcome.ok) none [cAbc1, cAbc2] ("ab" :: []) initLog).2
          = CmdResult.error ("multiple IDs found with provided prefix: " ++ "ab")
        ∧ exitCode (stopArgs (fun _ _ => StopOutcome.ok) none [cAbc1, cAbc2]
            ("ab" :: []) initLog).2 ≠ 0) :=
  ⟨by decide,
    stop_ambiguous_error_and_nonzero_exit (fun _ _ => StopOutcome.ok) none
      [cAbc1, cAbc2] "ab" [] initLog (by decide)⟩

/-- A request that resolves uniquely to a container whose Stop call succeeds:
such a request echoes to stdout. -/
def stopOkReq (g : Container → StopOutcome) (E : List Container) (req : String) : Bool :=
  match resolveMatches E req with
  | [c] => g c == StopOutcome.ok
  | _ => false

/-- A request that resolves uniquely but whose container vanishes before the
Stop call takes effect: such a request reports on stderr only. -/
def stopVanishedReq (g : Container → StopOutcome) (E : List Container) (req : String) : Bool :=
  match resolveMatches E req with
  | [c] => g c == StopOutcome.notFoundErr
  | _ => false

/-- C10: over a batch in which every argument resolves uniquely and no Stop
call fails with an unexpected error, the command succeeds, stdout receives
exactly the original request strings of the successfully stopped containers,
one line per request in argument order, and each vanished container
contributes a stderr line instead of a stdout line. -/
theorem stop_stdout_reports_requests (stopFn : Option Int → Container → StopOutcome)
    (t : Option Int) (E : List Container) (args : List String) (log : RunLog)
    (h1 : ∀ req ∈ args, ∃ c, resolveMatches E req = [c])
    (h2 : ∀ c m, stopFn t c ≠ StopOutcome.otherErr m) :
    (stopArgs stopFn t E args log).2 = CmdResult.ok
    ∧ (stopArgs stopFn t E args log).1.stdout
        = log.stdout ++ args.filter (stopOkReq (stopFn t) E)
    ∧ (stopArgs stopFn t E args log).1.stderr
        = log.stderr ++ (args.filter (stopVanishedReq (stopFn t) E)).map
            (fun q => "No such container: " ++ q) := by
  revert h1
  induction args generalizing log with
  | nil =>
    intro _
    simp [stopArgs]
  | cons req rest ih =>
    intro h1
    obtain ⟨c, hc⟩ := h1 req (by simp)
    have hrest : ∀ q ∈ rest, ∃ c, resolveMatches E q = [c] :=
      fun q hq => h1 q (List.mem_cons_of_mem _ hq)
    rcases hg : stopFn t c with _ | _ | m
    · have hok : stopOkReq (stopFn t) E req = true := by
        simp [stopOkReq, hc, hg]
      have hvan : stopVanishedReq (stopFn t) E req = false := by
        simp [stopVanishedReq, hc, hg]
      have hstep : stopArgs stopFn t E (req :: rest) log
          = stopArgs stopFn t E rest
              { log with stopCalls := log.stopCalls ++ [(c, t)],
                         stdout := log.stdout ++ [req] } := by
        simp only [stopArgs, walk, hc, List.length_singleton, runOnFoundAll_singleton]
        simp [onFound, hg]
      obtain ⟨ha, hb, he⟩ := ih _ hrest
      rw [hstep]
      refine ⟨ha, ?_, ?_⟩
      · rw [hb]
        simp [List.filter_cons, hok, hvan]
      · rw [he]
        simp [List.filter_cons, hok, hvan]
    · have hok : stopOkReq (stopFn t) E req = false := by
        simp [stopOkReq, hc, hg]
      have hvan : stopVanishedReq (stopFn t) E req = true := by
        simp [stopVanishedReq, hc, hg]
      have hstep : stopArgs stopFn t E (req :: rest) log
          = stopArgs stopFn t E rest
              { log with stopCalls := log.stopCalls ++ [(c, t)],
                         stderr := log.stderr ++ ["No such container: " ++ req] } := by
        simp only [stopArgs, walk, hc, List.length_singleton, runOnFoundAll_singleton]
        simp [onFound, hg]
      obtain ⟨ha, hb, he⟩ := ih _ hrest
      rw [hstep]
      refine ⟨ha, ?_, ?_⟩
      · rw [hb]
        simp [List.filter_cons, hok, hvan]
      · rw [he]
        simp [List.filter_cons, hok, hvan]
    · exact absurd hg (h2 c m)

def cAlpha : Container := { id := "aa110000", name := none }

def cBeta : Container := { id := "bb220000", name := some "beta" }

/-- A Stop oracle for concrete runs: succeeds on cAlpha and reports
not-found on every other container; it never yields an unexpected error. -/
def stopAaOk (_ : Option Int) (c : Container) : StopOutcome :=
  if c.id == "aa110000" then StopOutcome.ok else StopOutcome.notFoundErr

theorem stopAaOk_no_otherErr : ∀ c m, stopAaOk none c ≠ StopOutcome.otherErr m := by
  intro c m
  unfold stopAaOk
  split <;> simp

theorem resolves_uniquely_aa_beta :
    ∀ req ∈ ["aa", "beta"], ∃ c, resolveMatches [cAlpha, cBeta] req = [c] := by
  intro req hreq
  rcases List.mem_cons.mp hreq with h | h
  · exact ⟨cAlpha, by rw [h]; decide⟩
  · have h2 : req = "beta" := by simpa using h
    exact ⟨cBeta, by rw [h2]; decide⟩

/-- C10 witness: two containers, one stopped successfully via its name-based
request and one vanished; stdout carries the original request string "aa"
(which differs from the resolved full ID "aa110000"), the vanished request
goes to stderr only, and the command succeeds. -/
theorem stop_stdout_reports_requests_witness :
    (∀ req ∈ ["aa", "beta"], ∃ c, resolveMatches [cAlpha, cBeta] req = [c])
    ∧ (stopArgs stopAaOk none [cAlpha, cBeta] ["aa", "beta"] initLog).2 = CmdResult.ok
    ∧ (stopArgs stopAaOk none [cAlpha, cBeta] ["aa", "beta"] initLog).1.stdout
        = initLog.stdout ++ ["aa", "beta"].filter (stopOkReq (stopAaOk none) [cAlpha, cBeta])
    ∧ (stopArgs stopAaOk none [cAlpha, cBeta] ["aa", "beta"] initLog).1.stderr
        = initLog.stderr ++ (["aa", "beta"].filter
            (stopVanishedReq (stopAaOk none) [cAlpha, cBeta])).map
            (fun q => "No such container: " ++ q)
    ∧ "aa" ≠ cAlpha.id :=
  ⟨resolves_uniquely_aa_beta,
    (stop_stdout_reports_requests stopAaOk none [cAlpha, cBeta] ["aa", "beta"] initLog
        resolves_uniquely_aa_beta stopAaOk_no_otherErr).1,
    (stop_stdout_reports_requests stopAaOk none [cAlpha, cBeta] ["aa", "beta"] initLog
        resolves_uniquely_aa_beta stopAaOk_no_otherErr).2.1,
    (stop_stdout_reports_requests stopAaOk none [cAlpha, cBeta] ["aa", "beta"] initLog
        resolves_uniquely_aa_beta stopAaOk_no_otherErr).2.2,
    by decide⟩

/-! The trust-gated transfer layer. The push/pull gate and the trust backends
are code of this repository that is not under src/ (only their e2e tests in
src/unnamed/part_001 and part_002 and the documentation in part_000 are), so
the definitions below are modelled from the spec. -/

/-- Modelled from the spec: outcome of TrustBackend.Verify (spec section
4.3): positive, a trust denial with its reason, or a tool error. -/
inductive VerifyOutcome where
  | verified
  | trustDenied (reason : String)
  | verifyError
  deriving DecidableEq, Repr

/-- Modelled from the spec: the verification level of a trust policy
(spec section 3). -/
inductive VerifLevel where
  | strict
  | permissive
  | skip
  deriving DecidableEq, Repr

/-- Modelled from the spec: one named trust policy of the operator-authored
document (spec sections 3 and 6). -/
structure TrustPolicy where
  name : String
  registryScopes : List String
  level : VerifLevel
  trustStores : List String
  trustedIdentities : List String
  deriving DecidableEq, Repr

/-- Modelled from the spec: the versioned trust policy document with its
ordered set of named policies (spec sections 3 and 6). -/
structure TrustPolicyDocument where
  version : String
  trustPolicies : List TrustPolicy
  deriving DecidableEq, Repr

/-- Modelled from the spec: a scope pattern is a glob over
registry+repository, matches-all or exact (spec section 3). -/
def scopeMatches (pat ref : String) : Bool := pat == "*" || pat == ref

/-- Modelled from the spec: policy scope patterns are evaluated in document
order and the first matching policy governs (spec section 3). -/
def findPolicy (doc : TrustPolicyDocument) (ref : String) : Option TrustPolicy :=
  doc.trustPolicies.find? (fun p => p.registryScopes.any (fun pat => scopeMatches pat ref))

/-- Steps of the pull path observable at the gate boundary. -/
inductive PullEvent where
  | transferContent
  | policyEval (policyName : String)
  | verifyCall
  | materializeImage
  deriving DecidableEq, Repr

/-- Result of one gated pull: whether a local image is observable by
subsequent operations, the process exit status, and the steps taken in
order. -/
structure PullResult where
  imageAvailable : Bool
  exit : Nat
  events : List PullEvent
  deriving DecidableEq, Repr

/-- Modelled from the spec: the TransferGate pull path (spec section 4.4; the
verify-gated pull implementation is not under src/). With a verification
directive the gate resolves the governing policy in document order —
fail-closed when none matches — invokes Verify, and only a positive outcome
materializes the image locally; any other outcome leaves no usable image and
exits nonzero. Without the directive the pull is exactly the unverified
transfer: no policy evaluation and no Verify call at all. -/
def pullGate (doc : TrustPolicyDocument) (ref : String) (verifyRequested : Bool)
    (verify : TrustPolicy → VerifyOutcome) : PullResult :=
  if verifyRequested then
    match findPolicy doc ref with
    | none => { imageAvailable := false, exit := 1, events := [] }
    | some p =>
      match verify p with
      | VerifyOutcome.verified =>
          { imageAvailable := true, exit := 0,
            events := [PullEvent.policyEval p.name, PullEvent.verifyCall,
                       PullEvent.transferContent, PullEvent.materializeImage] }
      | _ =>
          { imageAvailable := false, exit := 1,
            events := [PullEvent.policyEval p.name, PullEvent.verifyCall] }
  else
    { imageAvailable := true, exit := 0,
      events := [PullEvent.transferContent, PullEvent.materializeImage] }

/-- The trust policy used by the e2e tests (src/unnamed/part_002,
newNotationTrustPolicy): one strict policy scoping all registries. -/
def testPolicy : TrustPolicy :=
  { name := "e2e", registryScopes := ["*"], level := VerifLevel.strict,
    trustStores := ["ca:e2e-notation"], trustedIdentities := ["*"] }

def testDoc : TrustPolicyDocument := { version := "1.0", trustPolicies := [testPolicy] }

def emptyDoc : TrustPolicyDocument := { version := "1.0", trustPolicies := [] }

/-- C6: for every pull with a verification directive, a local image is
observable afterwards if and only if the governing policy's Verify returned
the positive outcome; materialization happens exactly in that case; and an
unavailable image always comes with a nonzero exit (fail-closed, including
when no policy scope matches). -/
theorem pull_fail_closed (doc : TrustPolicyDocument) (ref : String)
    (verify : TrustPolicy → VerifyOutcome) :
    ((pullGate doc ref true verify).imageAvailable = true
      ↔ ∃ p, findPolicy doc ref = some p ∧ verify p = VerifyOutcome.verified)
    ∧ ((pullGate doc ref true verify).imageAvailable = true
      ↔ PullEvent.materializeImage ∈ (pullGate doc ref true verify).events)
    ∧ ((pullGate doc ref true verify).imageAvailable = false
      ↔ (pullGate doc ref true verify).exit ≠ 0) := by
  rcases hp : findPolicy doc ref with _ | p
  · simp [pullGate, hp]
  · rcases hv : verify p with _ | r | _ <;> simp [pullGate, hp, hv]

/-- C6 witness: under the e2e test policy, a trust denial (the key-mismatch
scenario of TestImageVerifyWithCosignShouldFailWhenKeyIsNotCorrect) leaves no
usable image and exits nonzero; a positive verification makes the image
available. -/
theorem pull_fail_closed_witness :
    ((pullGate testDoc "127.0.0.1:5000/img" true
          (fun _ => VerifyOutcome.trustDenied "no matching signature")).imageAvailable
        = false
      ∧ (pullGate testDoc "127.0.0.1:5000/img" true
          (fun _ => VerifyOutcome.trustDenied "no matching signature")).exit ≠ 0)
    ∧ (pullGate testDoc "127.0.0.1:5000/img" true
        (fun _ => VerifyOutcome.verified)).imageAvailable = true := by
  refine ⟨?_, ?_⟩
  · have h := (pull_fail_closed testDoc "127.0.0.1:5000/img"
        (fun _ => VerifyOutcome.trustDenied "no matching signature")).2.2
    have hav : (pullGate testDoc "127.0.0.1:5000/img" true
        (fun _ => VerifyOutcome.trustDenied "no matching signature")).imageAvailable
        = false := by decide
    exact ⟨hav, h.mp hav⟩
  · exact (pull_fail_closed testDoc "127.0.0.1:5000/img"
        (fun _ => VerifyOutcome.verified)).1.mpr ⟨testPolicy, by decide, rfl⟩

/-- C7: for every pull without a verification directive, the gate performs no
policy evaluation and no Verify call at all: the result is exactly the
unverified transfer, independent of whatever policy document is
configured. -/
theorem pull_without_directive_skips_verification
    (doc doc2 : TrustPolicyDocument) (ref : String)
    (verify verify2 : TrustPolicy → VerifyOutcome) :
    pullGate doc ref false verify
      = { imageAvailable := true, exit := 0,
          events := [PullEvent.transferContent, PullEvent.materializeImage] }
    ∧ (∀ nm, PullEvent.policyEval nm ∉ (pullGate doc ref false verify).events)
    ∧ PullEvent.verifyCall ∉ (pullGate doc ref false verify).events
    ∧ pullGate doc ref false verify = pullGate doc2 ref false verify2 := by
  refine ⟨rfl, ?_, by simp [pullGate], rfl⟩
  intro nm
  simp [pullGate]

/-- C7 witness: the theorem applied with the e2e test policy configured on
one side and no policy on the other (the plain-http pull scenario of
TestImagePullPlainHttpWithDefaultPort runs with no verify flag). -/
theorem pull_without_directive_skips_verification_witness :
    PullEvent.policyEval "e2e" ∉ (pullGate testDoc "10.0.0.1/img" false
        (fun _ => VerifyOutcome.verifyError)).events
    ∧ pullGate testDoc "10.0.0.1/img" false (fun _ => VerifyOutcome.verifyError)
      = pullGate emptyDoc "10.0.0.1/img" false (fun _ => VerifyOutcome.verified) :=
  ⟨(pull_without_directive_skips_verification testDoc emptyDoc "10.0.0.1/img"
      (fun _ => VerifyOutcome.verifyError) (fun _ => VerifyOutcome.verified)).2.1 "e2e",
    (pull_without_directive_skips_verification testDoc emptyDoc "10.0.0.1/img"
      (fun _ => VerifyOutcome.verifyError) (fun _ => VerifyOutcome.verified)).2.2.2⟩

/-- Steps of the push path observable at the gate boundary. -/
inductive PushEvent where
  | registryPush
  | pushSucceeded (digest : String)
  | signCall (digest : String)
  | attestationPublish (digest : String)
  deriving DecidableEq, Repr

/-- Result of one gated push: the overall report, whether the registry holds
the pushed content afterwards, and the steps taken in order. -/
structure PushResult where
  succeeded : Bool
  registryHasContent : Bool
  events : List PushEvent
  deriving DecidableEq, Repr

/-- Modelled from the spec: the TransferGate push path (spec sections 4.4 and
5; the push/sign implementation is not under src/). The image is pushed
first; only after the push succeeds at a stable digest is Sign invoked on
that digest, then the attestation is published for it; a sign failure after a
successful push fails the push overall while the already-pushed content stays
in the registry (no automatic rollback). -/
def pushGate (signRequested : Bool) (pushOutcome : Option String)
    (sign : String → Bool) : PushResult :=
  match pushOutcome with
  | none =>
      { succeeded := false, registryHasContent := false,
        events := [PushEvent.registryPush] }
  | some d =>
    if signRequested then
      if sign d then
        { succeeded := true, registryHasContent := true,
          events := [PushEvent.registryPush, PushEvent.pushSucceeded d,
                     PushEvent.signCall d, PushEvent.attestationPublish d] }
      else
        { succeeded := false, registryHasContent := true,
          events := [PushEvent.registryPush, PushEvent.pushSucceeded d,
                     PushEvent.signCall d] }
    else
      { succeeded := true, registryHasContent := true,
        events := [PushEvent.registryPush, PushEvent.pushSucceeded d] }

/-- C8: in every gated push, a sign call on a digest appears in the step
sequence only strictly after the successful push of that same digest (the
sign step never starts before the registry push completed); and when signing
fails after a successful push, the push is reported failed overall while the
registry still holds the pushed content. -/
theorem push_sign_after_push_no_rollback (signRequested : Bool)
    (pushOutcome : Option String) (sign : String → Bool) :
    (∀ i d, ((pushGate signRequested pushOutcome sign).events).get? i
          = some (PushEvent.signCall d) →
        ∃ j, j < i ∧ ((pushGate signRequested pushOutcome sign).events).get? j
          = some (PushEvent.pushSucceeded d))
    ∧ (∀ d, pushOutcome = some d → signRequested = true → sign d = false →
        (pushGate signRequested pushOutcome sign).succeeded = false
        ∧ (pushGate signRequested pushOutcome sign).registryHasContent = true) := by
  constructor
  · intro i d hi
    rcases pushOutcome with _ | d'
    · rcases i with _ | i <;> simp [pushGate] at hi
    · cases signRequested
      · rcases i with _ | _ | i <;> simp [pushGate] at hi
      · cases hsd : sign d'
        · rcases i with _ | _ | _ | i <;> simp [pushGate, hsd] at hi
          subst hi
          exact ⟨1, by omega, by simp [pushGate, hsd]⟩
        · rcases i with _ | _ | _ | _ | i <;> simp [pushGate, hsd] at hi
          subst hi
          exact ⟨1, by omega, by simp [pushGate, hsd]⟩
  · intro d hd hs hsf
    subst hd
    subst hs
    simp [pushGate, hsf]

/-- C8 witness: a push that succeeds at a digest whose signing then fails is
reported failed overall while the content remains in the registry. -/
theorem push_sign_after_push_no_rollback_witness :
    (pushGate true (some "sha256:d1") (fun _ => false)).succeeded = false
    ∧ (pushGate true (some "sha256:d1") (fun _ => false)).registryHasContent = true :=
  (push_sign_after_push_no_rollback true (some "sha256:d1") (fun _ => false)).2
    "sha256:d1" rfl rfl rfl

/-! The graceful-termination state machine. The controller (containerutil.Stop
and the runtime signalling beneath it) is code of this repository that is not
under src/, so it is modelled from the spec, section 4.2. -/

/-- Signals the TerminationController can issue. -/
inductive Sig where
  | graceful
  | forceful
  deriving DecidableEq, Repr

/-- States of the termination state machine (spec section 4.2). -/
inductive TPhase where
  | requested
  | signalSent
  | awaitingExit
  | escalated
  | terminated
  | failed
  deriving DecidableEq, Repr

/-- Controller state: current phase, ticks waited since the escalation timer
started, and the signals issued so far, each with the tick of the await timer
at which it was issued. -/
structure TCState where
  phase : TPhase
  waited : Nat
  sigLog : List (Nat × Sig)
  deriving DecidableEq, Repr

def tcInit : TCState := { phase := TPhase.requested, waited := 0, sigLog := [] }

/-- Modelled from the spec: one transition of the TerminationController
(spec section 4.2). Requested issues the graceful signal at once; SignalSent
starts the escalation timer; AwaitingExit terminates if the entity reached a
terminal runtime status, escalates with one forceful signal once the timer
has elapsed, and otherwise keeps waiting; Escalated terminates when the
forceful signal takes effect; Terminated and Failed are absorbing. -/
def tcStep (T : Nat) (terminalNow : Bool) (s : TCState) : TCState :=
  match s.phase with
  | TPhase.requested =>
      { s with phase := TPhase.signalSent, sigLog := s.sigLog ++ [(0, Sig.graceful)] }
  | TPhase.signalSent => { s with phase := TPhase.awaitingExit, waited := 0 }
  | TPhase.awaitingExit =>
      if terminalNow then { s with phase := TPhase.terminated }
      else if T ≤ s.waited then
        { s with phase := TPhase.escalated,
                 sigLog := s.sigLog ++ [(s.waited, Sig.forceful)] }
      else { s with waited := s.waited + 1 }
  | TPhase.escalated => { s with phase := TPhase.terminated }
  | TPhase.terminated => s
  | TPhase.failed => s

/-- A controller run from a given state: fold the per-tick entity status over
the step function. -/
def tcRunFrom (T : Nat) (bs : List Bool) (s : TCState) : TCState :=
  bs.foldl (fun s b => tcStep T b s) s

/-- A controller run from the initial state. -/
def tcRun (T : Nat) (bs : List Bool) : TCState :=
  tcRunFrom T bs tcInit

/-- Step invariant: every forceful signal on record was issued at or after
tick T of the await timer. -/
theorem tcStep_forceful_late (T : Nat) (b : Bool) (s : TCState)
    (h : ∀ p ∈ s.sigLog, p.2 = Sig.forceful → T ≤ p.1) :
    ∀ p ∈ (tcStep T b s).sigLog, p.2 = Sig.forceful → T ≤ p.1 := by
  unfold tcStep
  cases hp : s.phase
  case requested =>
    intro p hmem hf
    rcases List.mem_append.mp hmem with hm | hm
    · exact h p hm hf
    · simp only [List.mem_singleton] at hm
      rw [hm] at hf
      simp at hf
  case awaitingExit =>
    by_cases hterm : b = true
    · rw [if_pos hterm]
      exact h
    · rw [if_neg hterm]
      by_cases htime : T ≤ s.waited
      · rw [if_pos htime]
        intro p hmem hf
        rcases List.mem_append.mp hmem with hm | hm
        · exact h p hm hf
        · simp only [List.mem_singleton] at hm
          rw [hm]
          exact htime
      · rw [if_neg htime]
        exact h
  all_goals exact h

/-- Run invariant: in any run from any start state respecting the invariant,
every forceful signal was issued at or after tick T. -/
theorem tcRunFrom_forceful_late (T : Nat) (bs : List Bool) :
    ∀ (s : TCState), (∀ p ∈ s.sigLog, p.2 = Sig.forceful → T ≤ p.1) →
      ∀ p ∈ (tcRunFrom T bs s).sigLog, p.2 = Sig.forceful → T ≤ p.1 := by
  induction bs with
  | nil => exact fun s h => h
  | cons b bs ih => exact fun s h => ih _ (tcStep_forceful_late T b s h)

/-- From AwaitingExit with the entity never terminal, the controller counts
the timer up and escalates exactly when it elapses, issuing one forceful
signal stamped with the elapsed tick. -/
theorem tcRunFrom_await_false (T : Nat) :
    ∀ (d w : Nat) (lg : List (Nat × Sig)), T - w = d →
      tcRunFrom T (List.replicate (d + 1) false)
          { phase := TPhase.awaitingExit, waited := w, sigLog := lg }
        = { phase := TPhase.escalated, waited := max w T,
            sigLog := lg ++ [(max w T, Sig.forceful)] } := by
  intro d
  induction d with
  | zero =>
    intro w lg hd
    have hw : T ≤ w := Nat.sub_eq_zero_iff_le.mp hd
    have hmax : max w T = w := Nat.max_eq_left hw
    simp [tcRunFrom, tcStep, hw, hmax]
  | succ k ih =>
    intro w lg hd
    have hlt : w < T := by omega
    have hd2 : T - (w + 1) = k := by omega
    have hmax : max w T = max (w + 1) T := by omega
    have hstep : tcRunFrom T (List.replicate (k + 1 + 1) false)
          { phase := TPhase.awaitingExit, waited := w, sigLog := lg }
        = tcRunFrom T (List.replicate (k + 1) false)
          { phase := TPhase.awaitingExit, waited := w + 1, sigLog := lg } := by
      rw [List.replicate_succ]
      show tcRunFrom T (List.replicate (k + 1) false)
          (tcStep T false { phase := TPhase.awaitingExit, waited := w, sigLog := lg }) = _
      have : tcStep T false { phase := TPhase.awaitingExit, waited := w, sigLog := lg }
          = { phase := TPhase.awaitingExit, waited := w + 1, sigLog := lg } := by
        simp [tcStep, Nat.not_le.mpr hlt]
      rw [this]
    rw [hstep, ih (w + 1) lg hd2, hmax]

/-- Once escalated or terminated, later ticks issue no further signal. -/
theorem tcRunFrom_absorbing (T : Nat) :
    ∀ (bs : List Bool) (s : TCState),
      s.phase = TPhase.escalated ∨ s.phase = TPhase.terminated →
      (tcRunFrom T bs s).sigLog = s.sigLog := by
  intro bs
  induction bs with
  | nil => intro s _; rfl
  | cons b bs ih =>
    intro s h
    have hrun : tcRunFrom T (b :: bs) s = tcRunFrom T bs (tcStep T b s) := rfl
    rcases h with h | h
    · have hstep : tcStep T b s = { s with phase := TPhase.terminated } := by
        unfold tcStep
        rw [h]
      rw [hrun, hstep, ih _ (Or.inr rfl)]
    · have hstep : tcStep T b s = s := by
        unfold tcStep
        rw [h]
      rw [hrun, hstep, ih _ (Or.inr h)]

/-- A run whose entity stays non-terminal through the whole timeout window
issues exactly the graceful signal at tick 0 and one forceful signal at tick
T, whatever happens afterwards. -/
theorem tcRun_nonterminal_sigLog (T : Nat) (rest : List Bool) :
    (tcRun T (List.replicate (T + 3) false ++ rest)).sigLog
      = [(0, Sig.graceful), (T, Sig.forceful)] := by
  have hsplit : tcRun T (List.replicate (T + 3) false ++ rest)
      = tcRunFrom T rest (tcRunFrom T (List.replicate (T + 3) false) tcInit) := by
    simp [tcRun, tcRunFrom, List.foldl_append]
  have hrep : List.replicate (T + 3) false
      = false :: false :: List.replicate (T + 1) false := by
    rw [show T + 3 = (T + 1) + 1 + 1 from rfl, List.replicate_succ, List.replicate_succ]
  have hinner : tcRunFrom T (List.replicate (T + 3) false) tcInit
      = { phase := TPhase.escalated, waited := T,
          sigLog := [(0, Sig.graceful), (T, Sig.forceful)] } := by
    rw [hrep]
    have htwo : tcRunFrom T (false :: false :: List.replicate (T + 1) false) tcInit
        = tcRunFrom T (List.replicate (T + 1) false)
          { phase := TPhase.awaitingExit, waited := 0, sigLog := [(0, Sig.graceful)] } := rfl
    rw [htwo, tcRunFrom_await_false T T 0 [(0, Sig.graceful)] (by omega)]
    simp
  rw [hsplit, hinner, tcRunFrom_absorbing T rest _ (Or.inl rfl)]

/-- C9: in every termination run whose entity stays non-terminal through the
configured timeout window, exactly one forceful signal is issued, and it
carries tick T; moreover in any run whatsoever — whatever the entity does —
no forceful signal is ever issued before the timeout has elapsed. -/
theorem termination_escalates_once_never_early (T : Nat) (rest bs : List Bool) :
    ((tcRun T (List.replicate (T + 3) false ++ rest)).sigLog.filter
        (fun p => p.2 == Sig.forceful)).length = 1
    ∧ (∀ p ∈ (tcRun T (List.replicate (T + 3) false ++ rest)).sigLog,
        p.2 = Sig.forceful → T ≤ p.1)
    ∧ (∀ p ∈ (tcRun T bs).sigLog, p.2 = Sig.forceful → T ≤ p.1) := by
  refine ⟨?_, ?_, tcRunFrom_forceful_late T bs tcInit (by simp [tcInit])⟩
  · rw [tcRun_nonterminal_sigLog]
    simp
  · intro p hp
    rw [tcRun_nonterminal_sigLog] at hp
    simp only [List.mem_cons, List.not_mem_nil, or_false] at hp
    rcases hp with hp | hp <;> rw [hp] <;> simp

/-- C9 witness: with a timeout of 2 ticks and an entity that never exits on
its own, the run issues exactly one forceful signal and it is never issued
before the timeout. -/
theorem termination_escalates_once_never_early_witness :
    ((tcRun 2 (List.replicate (2 + 3) false ++ [])).sigLog.filter
        (fun p => p.2 == Sig.forceful)).length = 1
    ∧ (∀ p ∈ (tcRun 2 (List.replicate (2 + 3) false ++ [])).sigLog,
        p.2 = Sig.forceful → 2 ≤ p.1)
    ∧ (∀ p ∈ (tcRun 2 [true]).sigLog, p.2 = Sig.forceful → 2 ≤ p.1) :=
  termination_escalates_once_never_early 2 [] [true]
